import Mathlib

/-!
Shallow embedding of the answer-key matching and metrics aggregation engine
of the P360 analytics service (src/main.py, src/models.py).

Sequences of answer symbols are `List Char`; student records mirror the
`Aluno` model; the in-memory answer-key cache is an association list with
last-write-wins lookup (a Python dict); DataFrame pipelines become lists of
rows; exam means are exact rationals; a Python exception (IndexError) is
`Option.none`.
-/

set_option maxRecDepth 8192

namespace WebApp

/-- Mirrors `models.Aluno`: one student record. -/
structure Aluno where
  id : Int
  nu_ano : Int
  co_curso : Int
  co_caderno : Int
  ies_nome : String
  p360 : String
  enamed_ies : String
  respostas : String
deriving DecidableEq

/-- Mirrors `models.Localidade`. -/
structure Localidade where
  co_curso : Int
  ies_estado : String
  ies_munic : String
  sigla_estado : String
deriving DecidableEq

/-- Mirrors `models.QuestaoMapeamento`: one topic-mapping row. -/
structure QuestaoMapeamento where
  co_caderno : Int
  nu_questao : Int
  grande_area : String
  subespecialidade : String
  diagnostico : String
deriving DecidableEq

/-- The answer-key cache `GABARITO_CACHE`: booklet id to key symbols. -/
def GabCache := List (Int × List Char)

/-- Python dict lookup on an association list: the last binding wins,
as in the dict comprehension building `GABARITO_CACHE`. -/
def dictGet (cache : GabCache) (c : Int) : Option (List Char) :=
  cache.foldl (fun acc p => if p.1 = c then some p.2 else acc) none

/-- `gab = GABARITO_CACHE.get(...)` followed by `if not gab: continue`:
a missing key and an empty key are both falsy and skipped. -/
def gabFor (cache : GabCache) (c : Int) : Option (List Char) :=
  match dictGet cache c with
  | none => none
  | some g => if g = [] then none else some g

/-- Membership in the annulled-marker list `['X', 'Z', '*']`. -/
def isAnnulled (c : Char) : Bool :=
  c = 'X' ∨ c = 'Z' ∨ c = '*'

/-- The same membership test applied to a normalized (string) symbol,
as in `obter_referencial_nacional`. -/
def isAnnulledStr (s : String) : Bool :=
  s = "X" ∨ s = "Z" ∨ s = "*"

/-- `str(c).strip().upper()` for a single symbol: a whitespace symbol
strips to the empty string, any other symbol is uppercased. -/
def stripUpper (c : Char) : String :=
  if c.isWhitespace then "" else (c.toUpper).toString

/-- Per-position correctness in `obter_referencial_nacional` (line 50):
both symbols are stripped and uppercased, the key symbol is tested
against the annulled markers, otherwise the symbols are compared. -/
def refAcerto (g r : Char) : Nat :=
  if isAnnulledStr (stripUpper g) then 1
  else if stripUpper r = stripUpper g then 1 else 0

/-- Per-position correctness test shared by `obter_ranking_ies` (line 74)
and `obter_benchmark.calcular_media_lista` (line 181):
`gab[i] in ['X','Z','*'] or res[i] == gab[i]` on the raw symbols. -/
def rankCorrect (g r : Char) : Bool :=
  isAnnulled g || r = g

/-- One scored question of the national-reference pipeline
(`lista_acertos` entries in `obter_referencial_nacional`). -/
structure AcertoRow where
  nu_questao : Int
  co_caderno : Int
  acerto : Nat
deriving DecidableEq

/-- The loop body of `obter_referencial_nacional` over the listed
positions: indexing either sequence out of bounds is the `none`
(IndexError) outcome. -/
def refGo (gab res : List Char) (caderno : Int) : List Nat → Option (List AcertoRow)
  | [] => some []
  | i :: is =>
    match gab[i]?, res[i]? with
    | some g, some r =>
      match refGo gab res caderno is with
      | none => none
      | some rows => some (⟨(i : Int) + 1, caderno, refAcerto g r⟩ :: rows)
    | _, _ => none

/-- Scoring of one record inside `obter_referencial_nacional` (lines 44-51):
a record whose booklet has no (or an empty) key is skipped, otherwise
positions `0 ≤ i < min(len(res), 100)` are scored. -/
def refScoreAluno (cache : GabCache) (al : Aluno) : Option (List AcertoRow) :=
  match gabFor cache al.co_caderno with
  | none => some []
  | some gab =>
    refGo gab al.respostas.toList al.co_caderno
      (List.range (min al.respostas.toList.length 100))

/-- Sequences a list of fallible computations, aborting on the first
failure, as a Python loop aborted by an exception. -/
def traverseOpt (f : α → Option β) : List α → Option (List β)
  | [] => some []
  | a :: as =>
    match f a with
    | none => none
    | some b =>
      match traverseOpt f as with
      | none => none
      | some bs => some (b :: bs)

/-- The grouping key (grande_area, subespecialidade, diagnostico). -/
structure GKey where
  grande_area : String
  subespecialidade : String
  diagnostico : String
deriving DecidableEq

/-- A national-reference row after the merge with the topic map. -/
structure JoinedQ where
  nu_questao : Int
  co_caderno : Int
  acerto : Nat
  key : GKey
deriving DecidableEq

/-- One row of the melted per-student correctness frame `df_long`
in `calcular_metricas_curso`. -/
structure LongRow where
  aluno_registro_id : Int
  co_caderno : Int
  nu_questao : Int
  acerto : Nat
deriving DecidableEq

/-- A `df_long` row after the inner merge with the topic map. -/
structure JoinedRow where
  aluno_registro_id : Int
  co_caderno : Int
  nu_questao : Int
  acerto : Nat
  key : GKey
deriving DecidableEq

/-- Inner merge of national-reference scored rows with the topic map on
(nu_questao, co_caderno), as `pd.merge` at line 54: each left row is
paired with every matching mapping row. -/
def mergeMapaRef (rows : List AcertoRow) (mapa : List QuestaoMapeamento) : List JoinedQ :=
  rows.flatMap (fun r =>
    (mapa.filter (fun m => m.nu_questao = r.nu_questao ∧ m.co_caderno = r.co_caderno)).map
      (fun m => ⟨r.nu_questao, r.co_caderno, r.acerto,
        ⟨m.grande_area, m.subespecialidade, m.diagnostico⟩⟩))

/-- Inner merge of `df_long` with the topic map on (nu_questao, co_caderno),
as `pd.merge(..., how='inner')` at line 119. -/
def mergeMapaCalc (rows : List LongRow) (mapa : List QuestaoMapeamento) : List JoinedRow :=
  rows.flatMap (fun r =>
    (mapa.filter (fun m => m.nu_questao = r.nu_questao ∧ m.co_caderno = r.co_caderno)).map
      (fun m => ⟨r.aluno_registro_id, r.co_caderno, r.nu_questao, r.acerto,
        ⟨m.grande_area, m.subespecialidade, m.diagnostico⟩⟩))

/-- The distinct values of a list, first occurrence kept, in encounter
order (pandas groupby group keys, dict insertion order). -/
def distinctKeys [DecidableEq κ] (seen : List κ) : List κ → List κ
  | [] => []
  | k :: ks => if k ∈ seen then distinctKeys seen ks else k :: distinctKeys (seen ++ [k]) ks

/-- Arithmetic mean of a series of rationals. -/
def seriesMean (l : List ℚ) : ℚ := l.sum / (l.length : ℚ)

/-- `groupby(keys)[val].mean()`: one output row per distinct key with the
mean of the value column over that group. -/
def groupMean [DecidableEq κ] (key : α → κ) (val : α → ℚ) (rows : List α) : List (κ × ℚ) :=
  (distinctKeys [] (rows.map key)).map
    (fun k => (k, seriesMean ((rows.filter (fun r => key r = k)).map val)))

/-- `obter_referencial_nacional` (lines 39-55): score the whole population,
inner-merge with the topic map, and take the mean correctness per
(grande_area, subespecialidade, diagnostico); `none` is a raised
IndexError. -/
def obter_referencial_nacional (cache : GabCache) (mapa : List QuestaoMapeamento)
    (alunos : List Aluno) : Option (List (GKey × ℚ)) :=
  match traverseOpt (refScoreAluno cache) alunos with
  | none => none
  | some ls =>
    some (groupMean (fun r => r.key) (fun r => (r.acerto : ℚ)) (mergeMapaRef ls.flatten mapa))

/-- The accumulator entry of the `resultados` dict in `obter_ranking_ies`. -/
structure RankAcc where
  co_curso : Int
  nome : String
  acertos : Nat
  total : Nat
deriving DecidableEq

/-- One leaderboard entry of `obter_ranking_ies`. -/
structure RankingEntry where
  co_curso : Int
  nome : String
  media : ℚ
deriving DecidableEq

/-- The inner loop of `obter_ranking_ies` (lines 72-74) and of
`calcular_media_lista` (lines 179-181) over one record: accumulate
(acertos, total) over the listed positions; `none` is an IndexError
from `gab[i]`. -/
def rankGo (gab res : List Char) : List Nat → Option (Nat × Nat)
  | [] => some (0, 0)
  | i :: is =>
    match gab[i]?, res[i]? with
    | some g, some r =>
      match rankGo gab res is with
      | none => none
      | some (a, t) => some (a + (if rankCorrect g r then 1 else 0), t + 1)
    | _, _ => none

/-- Scoring of one record in the ranking and benchmark paths: positions
`0 ≤ i < min(len(res), 100)`. -/
def rankScoreRecord (gab res : List Char) : Option (Nat × Nat) :=
  rankGo gab res (List.range (min res.length 100))

/-- One step of the `resultados` accumulation in `obter_ranking_ies`
(lines 66-74): create the institution entry on first encounter, then
skip the record if its booklet has no (or an empty) key, otherwise add
its per-question counts to the entry. -/
def rankStep (cache : GabCache) (acc : List RankAcc) (r : Aluno) : Option (List RankAcc) :=
  let acc1 := if r.co_curso ∈ acc.map (fun e => e.co_curso) then acc
    else acc ++ [⟨r.co_curso, r.ies_nome, 0, 0⟩]
  match gabFor cache r.co_caderno with
  | none => some acc1
  | some gab =>
    match rankScoreRecord gab r.respostas.toList with
    | none => none
    | some (a, t) =>
      some (acc1.map (fun e =>
        if e.co_curso = r.co_curso then { e with acertos := e.acertos + a, total := e.total + t }
        else e))

/-- The full `resultados` accumulation over the queried records. -/
def rankBuild (cache : GabCache) : List RankAcc → List Aluno → Option (List RankAcc)
  | acc, [] => some acc
  | acc, r :: rs =>
    match rankStep cache acc r with
    | none => none
    | some acc1 => rankBuild cache acc1 rs

/-- The guarded percentage `(acertos / total * 100) if total > 0 else 0`
(lines 78 and 182). -/
def mediaPct (acertos total : Nat) : ℚ :=
  if 0 < total then (acertos : ℚ) / (total : ℚ) * 100 else 0

/-- Round half to even to an integer, as Python `round`. -/
def roundHalfEven (q : ℚ) : ℤ :=
  let n := ⌊q⌋
  let r := q - n
  if r < 1 / 2 then n
  else if 1 / 2 < r then n + 1
  else if n % 2 = 0 then n else n + 1

/-- Python `round(q, d)`. -/
def pyRoundTo (d : ℕ) (q : ℚ) : ℚ := (roundHalfEven (q * 10 ^ d) : ℚ) / 10 ^ d

/-- Python `round(q, 1)`, applied to each institution mean at line 79. -/
def pyRound1 : ℚ → ℚ := pyRoundTo 1

/-- Python `round(q, 2)`, used by the dashboard and benchmark outputs. -/
def pyRound2 : ℚ → ℚ := pyRoundTo 2

/-- The leaderboard entry built at line 79: the institution mean is
rounded to one decimal before any sorting happens. -/
def mkEntry (e : RankAcc) : RankingEntry :=
  ⟨e.co_curso, e.nome, pyRound1 (mediaPct e.acertos e.total)⟩

/-- Descending order on a rational key. -/
def keyGe (k : α → ℚ) (a b : α) : Prop := k b ≤ k a

/-- Ascending order on a rational key. -/
def keyLe (k : α → ℚ) (a b : α) : Prop := k a ≤ k b

instance (k : α → ℚ) : DecidableRel (keyGe k) :=
  fun a b => inferInstanceAs (Decidable (k b ≤ k a))

instance (k : α → ℚ) : DecidableRel (keyLe k) :=
  fun a b => inferInstanceAs (Decidable (k a ≤ k b))

instance (k : α → ℚ) : IsTotal α (keyGe k) :=
  ⟨fun a b => (le_total (k b) (k a)).imp id id⟩

instance (k : α → ℚ) : IsTrans α (keyGe k) :=
  ⟨fun _ _ _ hab hbc => le_trans hbc hab⟩

instance (k : α → ℚ) : IsTotal α (keyLe k) :=
  ⟨fun a b => (le_total (k a) (k b)).imp id id⟩

instance (k : α → ℚ) : IsTrans α (keyLe k) :=
  ⟨fun _ _ _ hab hbc => le_trans hab hbc⟩

/-- Python `sorted(..., key=k, reverse=True)` (a stable descending sort)
and the descending `sort_values`. -/
def sortDescBy (k : α → ℚ) (l : List α) : List α := List.insertionSort (keyGe k) l

/-- Ascending `sort_values`. -/
def sortAscBy (k : α → ℚ) (l : List α) : List α := List.insertionSort (keyLe k) l

/-- The institution codes of one state, `select(Localidade.co_curso)
.where(Localidade.sigla_estado == uf)`. -/
def regionCursos (locs : List Localidade) (uf : String) : List Int :=
  (locs.filter (fun l => l.sigla_estado = uf)).map (fun l => l.co_curso)

/-- The optional region filter of `obter_ranking_ies` (lines 60-62):
`if uf:` is Python truthiness, so an empty string disables the filter. -/
def filterRegion (locs : List Localidade) (uf : Option String) (alunos : List Aluno) :
    List Aluno :=
  match uf with
  | none => alunos
  | some u => if u = "" then alunos else alunos.filter (fun a => a.co_curso ∈ regionCursos locs u)

/-- `obter_ranking_ies` (lines 57-83): filter by region, accumulate per
institution, round each mean to one decimal, sort descending (stable),
and locate the target. `posicao` is `next((i for i, item in
enumerate(ranking) if item.co_curso == co_curso), 0) + 1`. -/
def obter_ranking_ies (cache : GabCache) (locs : List Localidade) (alunos : List Aluno)
    (co_curso : Int) (uf : Option String) : Option (List RankingEntry × Nat × Nat) :=
  match rankBuild cache [] (filterRegion locs uf alunos) with
  | none => none
  | some acc =>
    let ranking := sortDescBy (fun e => e.media) (acc.map mkEntry)
    let posicao := (ranking.findIdx? (fun e => e.co_curso = co_curso)).getD 0 + 1
    some (ranking, posicao, ranking.length)

/-- The response padding and truncation of `calcular_metricas_curso`
(lines 91-93): pad with blanks to 100 symbols, then keep the first 100. -/
def padTrunc100 (res : List Char) : List Char :=
  (res ++ List.replicate (100 - res.length) ' ').take 100

/-- Per-position correctness in `calcular_metricas_curso` (lines 98-113):
`df_corr` starts at 0 everywhere; a booklet with no (or an empty) key
is never updated; for a scored booklet, positions at or beyond the key
length are left at 0 (the `break`), an annulled key symbol gives 1, and
otherwise the padded response symbol is compared with the raw key
symbol. -/
def calcAcertoPos (gabOpt : Option (List Char)) (resp : List Char) (i : Nat) : Nat :=
  match gabOpt with
  | none => 0
  | some gab =>
    match gab[i]? with
    | none => 0
    | some g => if isAnnulled g then 1 else if resp[i]? = some g then 1 else 0

/-- The 100 `df_long` rows of one student in `calcular_metricas_curso`:
question numbers 1..100 with the per-position correctness. -/
def dfLongStudent (cache : GabCache) (al : Aluno) : List LongRow :=
  (List.range 100).map (fun i =>
    ⟨al.id, al.co_caderno, Int.ofNat i + 1,
      calcAcertoPos (gabFor cache al.co_caderno) (padTrunc100 al.respostas.toList) i⟩)

/-- The melted frame `df_long` over a list of students. -/
def dfLong (cache : GabCache) (alunos : List Aluno) : List LongRow :=
  alunos.flatMap (dfLongStudent cache)

/-- `calcular_metricas_curso` (lines 85-119): `None` when the institution
has no records, otherwise the inner merge of the per-question
correctness rows with the topic map. -/
def calcular_metricas_curso (cache : GabCache) (mapa : List QuestaoMapeamento)
    (alunos : List Aluno) (co_curso : Int) : Option (List JoinedRow) :=
  let als := alunos.filter (fun a => a.co_curso = co_curso)
  if als = [] then none
  else some (mergeMapaCalc (dfLong cache als) mapa)

/-- One row of `df_comparativo` in `dashboard_completo`: institution mean,
national mean and the derived gap for one grouping key. -/
structure GapRow where
  key : GKey
  acerto : ℚ
  media_nacional : ℚ
  gap : ℚ
deriving DecidableEq

/-- The merge of the institution aggregate with the national reference on
the full grouping key and the gap computation (lines 141-142):
`gap = (acerto - media_nacional) * 100`. -/
def gapJoin (inst ref : List (GKey × ℚ)) : List GapRow :=
  inst.flatMap (fun a =>
    (ref.filter (fun r => r.1 = a.1)).map
      (fun r => ⟨a.1, a.2, r.2, (a.2 - r.2) * 100⟩))

/-- `fortalezas` (line 144): the comparison rows sorted descending by gap. -/
def fortalezasOf (comp : List GapRow) : List GapRow := sortDescBy (fun g => g.gap) comp

/-- `atencao` (line 145): the comparison rows sorted ascending by gap. -/
def atencaoOf (comp : List GapRow) : List GapRow := sortAscBy (fun g => g.gap) comp

/-- The payload of the `/ies/.../dashboard` endpoint. -/
structure Dashboard where
  ies : Option String
  media_geral : ℚ
  alunos : Nat
  fortalezas : List GapRow
  atencao : List GapRow
deriving DecidableEq

/-- The number of distinct values of a column (`Series.nunique`). -/
def countDistinct (l : List Int) : Nat := l.dedup.length

/-- `dashboard_completo` (lines 129-155): institution metrics, national
reference, gap comparison, and the two summary figures computed over
the merged (topic-mapped) rows; `none` covers both the 404 for an
institution without data and a propagated scoring exception. -/
def dashboard_completo (cache : GabCache) (mapa : List QuestaoMapeamento)
    (alunos : List Aluno) (co_curso : Int) : Option Dashboard :=
  match calcular_metricas_curso cache mapa alunos co_curso with
  | none => none
  | some df =>
    if df = [] then none
    else
      match obter_referencial_nacional cache mapa alunos with
      | none => none
      | some ref =>
        let agr := groupMean (fun r => r.key) (fun r => (r.acerto : ℚ)) df
        let comp := gapJoin agr ref
        some
          { ies := ((alunos.filter (fun a => a.co_curso = co_curso)).head?).map
              (fun a => a.ies_nome)
            media_geral := pyRound2 (100 * seriesMean (df.map (fun r => (r.acerto : ℚ))))
            alunos := countDistinct (df.map (fun r => r.aluno_registro_id))
            fortalezas := fortalezasOf comp
            atencao := atencaoOf comp }

/-- The fold of `calcular_media_lista` inside `obter_benchmark`
(lines 173-182) over a list of records: records whose booklet has no
(or an empty) key are skipped, the rest contribute their per-question
counts. -/
def benchGo (cache : GabCache) : List Aluno → Option (Nat × Nat)
  | [] => some (0, 0)
  | al :: rest =>
    match gabFor cache al.co_caderno with
    | none => benchGo cache rest
    | some gab =>
      match rankScoreRecord gab al.respostas.toList with
      | none => none
      | some (a, t) =>
        match benchGo cache rest with
        | none => none
        | some (ra, rt) => some (a + ra, t + rt)

/-- `calcular_media_lista`: the guarded overall percentage of a record
list. -/
def calcular_media_lista (cache : GabCache) (lista : List Aluno) : Option ℚ :=
  (benchGo cache lista).map (fun p => mediaPct p.1 p.2)

/-- The payload of the `/ies/.../benchmark` endpoint. -/
structure Benchmark where
  ies_atual : ℚ
  media_nacional : ℚ
  media_elite : ℚ
  vs_nacional : ℚ
  vs_elite : ℚ
deriving DecidableEq

/-- `obter_benchmark` (lines 168-198): the three guarded means and the two
gaps, each rounded to two decimals. -/
def obter_benchmark (cache : GabCache) (alunos : List Aluno) (co_curso : Int) :
    Option Benchmark :=
  if alunos = [] then none
  else
    match calcular_media_lista cache (alunos.filter (fun a => a.co_curso = co_curso)),
        calcular_media_lista cache alunos,
        calcular_media_lista cache (alunos.filter (fun a => a.enamed_ies.trim = "5")) with
    | some mIes, some mNac, some mElite =>
      some ⟨pyRound2 mIes, pyRound2 mNac, pyRound2 mElite,
        pyRound2 (mIes - mNac), pyRound2 (mIes - mElite)⟩
    | _, _, _ => none

/-! ### Concrete populations used by counterexamples and witnesses -/

/-- Booklet 1 answer key: five times 'A'. -/
def gabA5 : GabCache := [(1, ['A', 'A', 'A', 'A', 'A'])]

/-- Institution 1, 4 of 5 positions correct (80 percent) under `gabA5`. -/
def alunoA : Aluno := ⟨1, 2025, 1, 1, "IES A", "N", "N", "AAAAB"⟩

/-- Institution 2, 3 of 5 positions correct (60 percent) under `gabA5`. -/
def alunoB : Aluno := ⟨2, 2025, 2, 1, "IES B", "N", "N", "AAABB"⟩

/-- A region containing only institution 2. -/
def locsOnlyB : List Localidade := [⟨2, "Estado X", "Munic X", "XX"⟩]

/-- A topic mapping for booklet 7, question 1. -/
def mapaCad7 : List QuestaoMapeamento := [⟨7, 1, "GA", "SUB", "DIAG"⟩]

/-- A student of institution 10 whose booklet 7 has no answer key. -/
def alunoSemGab : Aluno := ⟨1, 2025, 10, 7, "IES C", "N", "N", "A"⟩

/-- A one-symbol answer key for booklet 1. -/
def gabShort : GabCache := [(1, ['A'])]

/-- A student with two response symbols against the one-symbol key. -/
def alunoLongo : Aluno := ⟨1, 2025, 10, 1, "IES D", "N", "N", "AB"⟩

/-! ### C5 — annulled questions score 1 in every path -/

/-- C5: whenever the answer-key symbol at a scored position is one of
'X', 'Z' or '*', the computed correctness is 1 regardless of the
response symbol, in the national-reference path (`refAcerto`), the
ranking/benchmark path (`rankCorrect`) and the per-institution
aggregation path (`calcAcertoPos`). -/
theorem claim5_annulled_scores_one (g r : Char) (h : g = 'X' ∨ g = 'Z' ∨ g = '*') :
    refAcerto g r = 1 ∧ rankCorrect g r = true ∧
      ∀ (gab resp : List Char) (i : Nat), gab[i]? = some g →
        calcAcertoPos (some gab) resp i = 1 := by
  have hb : isAnnulled g = true := by
    rcases h with rfl | rfl | rfl <;> decide
  have hs : isAnnulledStr (stripUpper g) = true := by
    rcases h with rfl | rfl | rfl <;> decide
  refine ⟨?_, ?_, ?_⟩
  · simp [refAcerto, hs]
  · simp [rankCorrect, hb]
  · intro gab resp i hg
    simp [calcAcertoPos, hg, hb]

/-- C5 witness: the theorem applied at key symbol 'Z' and response 'b'. -/
theorem claim5_annulled_scores_one_w :
    refAcerto 'Z' 'b' = 1 ∧ rankCorrect 'Z' 'b' = true ∧
      calcAcertoPos (some ['Z']) ['b'] 0 = 1 := by
  have h := claim5_annulled_scores_one 'Z' 'b' (Or.inr (Or.inl rfl))
  exact ⟨h.1, h.2.1, h.2.2 ['Z'] ['b'] 0 (by decide)⟩

/-! ### C3 — raw case-sensitive comparison? -/

/-- C3 counterexample: the scoring paths are not identical on raw symbols.
Scoring the lowercase response 'a' against the uppercase key 'A' gives
correctness 1 in the national-reference path, which strips and
uppercases both symbols before comparing, while the ranking path
compares raw symbols and gives 0. -/
theorem claim3_cx : refAcerto 'A' 'a' = 1 ∧ rankCorrect 'A' 'a' = false := by
  constructor <;> decide

/-- C3 amended: the ranking/benchmark path (`rankCorrect`) and the
per-institution aggregation path (`calcAcertoPos`) compare raw symbols
case-sensitively, but the national-reference path (`refAcerto`) strips
whitespace and uppercases both symbols before comparing, so a lowercase
response matches an uppercase key there. -/
theorem claim3_case_sensitivity (g r : Char) :
    (isAnnulled g = false → (rankCorrect g r = true ↔ r = g)) ∧
      (∀ (gab resp : List Char) (i : Nat), gab[i]? = some g → isAnnulled g = false →
        (calcAcertoPos (some gab) resp i = 1 ↔ resp[i]? = some g)) ∧
      (refAcerto g r = 1 ↔
        (isAnnulledStr (stripUpper g) = true ∨ stripUpper r = stripUpper g)) := by
  refine ⟨?_, ?_, ?_⟩
  · intro hb
    simp [rankCorrect, hb]
  · intro gab resp i hg hb
    by_cases he : resp[i]? = some g
    · simp [calcAcertoPos, hg, hb, he]
    · simp [calcAcertoPos, hg, hb, he]
  · by_cases hs : isAnnulledStr (stripUpper g) = true
    · simp [refAcerto, hs]
    · by_cases he : stripUpper r = stripUpper g
      · simp [refAcerto, hs, he]
      · simp [refAcerto, hs, he]

/-- C3 witness: the theorem applied at key 'B', response 'B'. -/
theorem claim3_case_sensitivity_w : rankCorrect 'B' 'B' = true :=
  ((claim3_case_sensitivity 'B' 'B').1 (by decide)).mpr rfl

/-! ### C2 — records with a missing answer key -/

/-- C2: a record whose booklet has no answer key is skipped by the
national-reference scorer (`refScoreAluno` yields no rows), but
`calcular_metricas_curso` still emits its pre-initialized correctness-0
rows, and those with a topic mapping survive the inner join: with no
key for booklet 7 and a mapping for (7, question 1), the student's
question 1 appears in the aggregation input with correctness 0. -/
theorem claim2_missing_key_zero_rows :
    calcular_metricas_curso [] mapaCad7 [alunoSemGab] 10 =
        some [⟨1, 7, 1, 0, ⟨"GA", "SUB", "DIAG"⟩⟩] ∧
      refScoreAluno [] alunoSemGab = some [] := by
  constructor <;> decide

/-! ### C1 — position of the target institution in the ranking -/

/-- C1 counterexample: ranking institution 1 (80 percent) and institution
2 (60 percent) but filtering to a region containing only institution 2,
then querying institution 1, returns position 1 of total 1 — not
position 0 — because `next((...), 0) + 1` turns the not-found default 0
into 1. -/
theorem claim1_cx :
    obter_ranking_ies gabA5 locsOnlyB [alunoA, alunoB] 1 (some "XX") =
        some ([⟨2, "IES B", 60⟩], 1, 1) ∧ (1 : Nat) ≠ 0 := by
  have hb : rankBuild gabA5 [] (filterRegion locsOnlyB (some "XX") [alunoA, alunoB]) =
      some [⟨2, "IES B", 3, 5⟩] := by decide
  have hm : mkEntry ⟨2, "IES B", 3, 5⟩ = ⟨2, "IES B", 60⟩ := by
    simp [mkEntry, mediaPct, pyRound1, pyRoundTo, roundHalfEven]
    norm_num
  refine ⟨?_, by decide⟩
  unfold obter_ranking_ies
  rw [hb]
  simp [hm, sortDescBy, List.insertionSort, List.findIdx?]

/-- C1 amended: whenever `obter_ranking_ies` returns, `total_count` is the
leaderboard length and `position_of_target` is the 1-based index of the
first leaderboard entry for the target institution when one exists, but
it is 1 — not 0 — when the target is absent from the leaderboard. -/
theorem claim1_rank_position (cache : GabCache) (locs : List Localidade)
    (alunos : List Aluno) (co_curso : Int) (uf : Option String)
    (ranking : List RankingEntry) (pos tot : Nat)
    (h : obter_ranking_ies cache locs alunos co_curso uf = some (ranking, pos, tot)) :
    tot = ranking.length ∧
      (∀ k, ranking.findIdx? (fun e => e.co_curso = co_curso) = some k → pos = k + 1) ∧
      (ranking.findIdx? (fun e => e.co_curso = co_curso) = none → pos = 1) := by
  unfold obter_ranking_ies at h
  cases hb : rankBuild cache [] (filterRegion locs uf alunos) with
  | none => rw [hb] at h; exact absurd h (by simp)
  | some acc =>
    rw [hb] at h
    simp only [Option.some.injEq, Prod.mk.injEq] at h
    obtain ⟨hrank, hpos, htot⟩ := h
    subst hrank
    refine ⟨htot.symm, ?_, ?_⟩
    · intro k hk
      rw [← hpos, hk]
      rfl
    · intro hk
      rw [← hpos, hk]
      rfl

/-- C1 witness: with no region filter institution 2 sits at index 1 of the
leaderboard, and the theorem yields position 2 = 1 + 1. -/
theorem claim1_rank_position_w :
    obter_ranking_ies gabA5 [] [alunoA, alunoB] 2 none =
        some ([⟨1, "IES A", 80⟩, ⟨2, "IES B", 60⟩], 2, 2) ∧ (2 : Nat) = 1 + 1 := by
  have h : obter_ranking_ies gabA5 [] [alunoA, alunoB] 2 none =
      some ([⟨1, "IES A", 80⟩, ⟨2, "IES B", 60⟩], 2, 2) := by
    have hb : rankBuild gabA5 [] (filterRegion [] none [alunoA, alunoB]) =
        some [⟨1, "IES A", 4, 5⟩, ⟨2, "IES B", 3, 5⟩] := by decide
    have hma : mkEntry ⟨1, "IES A", 4, 5⟩ = ⟨1, "IES A", 80⟩ := by
      simp [mkEntry, mediaPct, pyRound1, pyRoundTo, roundHalfEven]
      norm_num
    have hmb : mkEntry ⟨2, "IES B", 3, 5⟩ = ⟨2, "IES B", 60⟩ := by
      simp [mkEntry, mediaPct, pyRound1, pyRoundTo, roundHalfEven]
      norm_num
    unfold obter_ranking_ies
    rw [hb]
    simp only [List.map_cons, List.map_nil, hma, hmb]
    have hs : sortDescBy (fun e => e.media) [(⟨1, "IES A", 80⟩ : RankingEntry), ⟨2, "IES B", 60⟩] =
        [⟨1, "IES A", 80⟩, ⟨2, "IES B", 60⟩] := by
      simp [sortDescBy, List.insertionSort, List.orderedInsert, keyGe]
      norm_num
    rw [hs]
    simp [List.findIdx?]
  exact ⟨h, (claim1_rank_position gabA5 [] [alunoA, alunoB] 2 none
    [⟨1, "IES A", 80⟩, ⟨2, "IES B", 60⟩] 2 2 h).2.1 1 (by decide)⟩

/-! ### C4 — scored positions and length mismatches -/

/-- A topic mapping for booklet 1, question 2 (used to expose rows emitted
beyond the shorter sequence). -/
def mapaQ2 : List QuestaoMapeamento := [⟨1, 2, "GA", "SUB", "DIAG"⟩]

lemma refGo_inbounds (gab res : List Char) (cad : Int) :
    ∀ l : List Nat, (∀ i ∈ l, i < gab.length ∧ i < res.length) →
      refGo gab res cad l =
        some (l.map (fun i => ⟨(i : Int) + 1, cad, refAcerto (gab.getD i ' ') (res.getD i ' ')⟩)) := by
  intro l
  induction l with
  | nil => intro _; rfl
  | cons i is ih =>
    intro h
    obtain ⟨h1, h2⟩ := h i (List.mem_cons_self i is)
    have hg : gab[i]? = some (gab.getD i ' ') := by
      rw [List.getD_eq_getElem?_getD, List.getElem?_eq_getElem h1]
      rfl
    have hr : res[i]? = some (res.getD i ' ') := by
      rw [List.getD_eq_getElem?_getD, List.getElem?_eq_getElem h2]
      rfl
    rw [refGo, hg, hr, ih (fun j hj => h j (List.mem_cons_of_mem i hj))]
    rfl

lemma refGo_oob (gab res : List Char) (cad : Int) :
    ∀ l : List Nat, (∃ i ∈ l, gab.length ≤ i) → refGo gab res cad l = none := by
  intro l
  induction l with
  | nil =>
    rintro ⟨i, hi, _⟩
    exact absurd hi (List.not_mem_nil i)
  | cons j is ih =>
    rintro ⟨i, hi, hlen⟩
    rcases List.mem_cons.mp hi with rfl | hmem
    · have hnone : gab[i]? = none := List.getElem?_eq_none hlen
      cases hr : res[i]? <;> simp [refGo, hnone, hr]
    · cases hg : gab[j]? with
      | none => simp [refGo, hg]
      | some g =>
        cases hr : res[j]? with
        | none => simp [refGo, hg, hr]
        | some r => simp [refGo, hg, hr, ih ⟨i, hmem, hlen⟩]

/-- C4 counterexample: with a one-symbol key for booklet 1 and a
two-symbol response, the national-reference scorer indexes the key out
of bounds and raises (here `none`), contrary to never raising on a
length mismatch; and the per-institution path emits question 2 — a
position beyond both sequences — as an explicit correctness-0 row that
survives the topic join. -/
theorem claim4_cx :
    refScoreAluno gabShort alunoLongo = none ∧
      obter_referencial_nacional gabShort [] [alunoLongo] = none ∧
      calcular_metricas_curso gabShort mapaQ2 [alunoLongo] 10 =
        some [⟨1, 1, 2, 0, ⟨"GA", "SUB", "DIAG"⟩⟩] := by
  refine ⟨by decide, by decide, by decide⟩

/-- C4 amended: in the national-reference path, correctness is emitted
exactly for positions `0 ≤ i < min(len(responses), 100)` — which equals
`min(len(responses), len(key))` only when the key reaches that bound,
as the invariant 100-symbol keys do — and the key is indexed at all
those positions, raising when it is shorter; in the per-institution
path, responses are padded and truncated to exactly 100 symbols, all
100 positions are emitted, and positions at or beyond the key length
are emitted as correctness 0. -/
theorem claim4_scored_positions :
    (∀ (cache : GabCache) (al : Aluno) (gab : List Char),
        gabFor cache al.co_caderno = some gab →
        min al.respostas.toList.length 100 ≤ gab.length →
        refScoreAluno cache al =
          some ((List.range (min al.respostas.toList.length 100)).map
            (fun i => ⟨(i : Int) + 1, al.co_caderno,
              refAcerto (gab.getD i ' ') (al.respostas.toList.getD i ' ')⟩))) ∧
      (∀ (cache : GabCache) (al : Aluno) (gab : List Char),
        gabFor cache al.co_caderno = some gab →
        gab.length < min al.respostas.toList.length 100 →
        refScoreAluno cache al = none) ∧
      (∀ (cache : GabCache) (al : Aluno), (dfLongStudent cache al).length = 100) ∧
      (∀ (gab resp : List Char) (i : Nat), gab.length ≤ i →
        calcAcertoPos (some gab) resp i = 0) := by
  refine ⟨?_, ?_, ?_, ?_⟩
  · intro cache al gab hgab hlen
    unfold refScoreAluno
    rw [hgab]
    apply refGo_inbounds
    intro i hi
    have hi2 := List.mem_range.mp hi
    exact ⟨lt_of_lt_of_le hi2 hlen,
      lt_of_lt_of_le hi2 (min_le_left al.respostas.toList.length 100)⟩
  · intro cache al gab hgab hlen
    unfold refScoreAluno
    rw [hgab]
    exact refGo_oob gab al.respostas.toList al.co_caderno _
      ⟨gab.length, List.mem_range.mpr hlen, le_refl gab.length⟩
  · intro cache al
    simp [dfLongStudent]
  · intro gab resp i hlen
    simp [calcAcertoPos, List.getElem?_eq_none hlen]

/-- C4 witness: the first part of the theorem applied to a two-symbol key
and a one-symbol response scores exactly position 1. -/
theorem claim4_scored_positions_w :
    refScoreAluno [(1, ['A', 'B'])] ⟨1, 2025, 10, 1, "IES D", "N", "N", "A"⟩ =
      some [⟨1, 1, refAcerto 'A' 'A'⟩] := by
  have h := claim4_scored_positions.1 [(1, ['A', 'B'])]
    ⟨1, 2025, 10, 1, "IES D", "N", "N", "A"⟩ ['A', 'B'] (by decide) (by decide)
  simpa using h

/-! ### C8 — zero-denominator guards -/

lemma pyRound1_zero : pyRound1 0 = 0 := by
  norm_num [pyRound1, pyRoundTo, roundHalfEven]

lemma benchGo_skip (cache : GabCache) :
    ∀ lista : List Aluno,
      (∀ al ∈ lista, gabFor cache al.co_caderno = none ∨ al.respostas.toList = []) →
      benchGo cache lista = some (0, 0) := by
  intro lista
  induction lista with
  | nil => intro _; rfl
  | cons al rest ih =>
    intro h
    have hrest := ih (fun a ha => h a (List.mem_cons_of_mem al ha))
    rcases h al (List.mem_cons_self al rest) with hg | hres
    · simp [benchGo, hg, hrest]
    · cases hg : gabFor cache al.co_caderno with
      | none => simp [benchGo, hg, hrest]
      | some gab =>
        have hz : rankScoreRecord gab al.respostas.toList = some (0, 0) := by
          rw [rankScoreRecord, hres]
          rfl
        simp only [benchGo, hg, hz, hrest]

/-- C8: every guarded ratio returns 0 on a zero denominator: `mediaPct`
(the expression of lines 78 and 182) is 0 at total 0, a ranking entry
whose institution accumulated no scored questions gets media 0, and
`calcular_media_lista` returns 0 over a list in which no record can
contribute (no usable key or no response symbols). In the rational
model no NaN or infinity exists and no exception is raised. -/
theorem claim8_zero_division :
    (∀ a : Nat, mediaPct a 0 = 0) ∧
      (∀ e : RankAcc, e.total = 0 → (mkEntry e).media = 0) ∧
      (∀ (cache : GabCache) (lista : List Aluno),
        (∀ al ∈ lista, gabFor cache al.co_caderno = none ∨ al.respostas.toList = []) →
        calcular_media_lista cache lista = some 0) := by
  refine ⟨?_, ?_, ?_⟩
  · intro a
    simp [mediaPct]
  · intro e h
    simp [mkEntry, h, mediaPct, pyRound1_zero]
  · intro cache lista h
    rw [calcular_media_lista, benchGo_skip cache lista h]
    simp [mediaPct]

/-- C8 witness: the theorem applied at explicit zero-denominator inputs. -/
theorem claim8_zero_division_w :
    mediaPct 3 0 = 0 ∧ calcular_media_lista [] [alunoSemGab] = some 0 := by
  refine ⟨claim8_zero_division.1 3, claim8_zero_division.2.2 [] [alunoSemGab] ?_⟩
  intro al hal
  rw [List.mem_singleton] at hal
  subst hal
  left
  rfl

/-! ### C6 — gap formula and strengths/attention orderings -/

/-- A first concrete grouping key. -/
def kC61 : GKey := ⟨"GA1", "S1", "D1"⟩

/-- A second concrete grouping key. -/
def kC62 : GKey := ⟨"GA2", "S2", "D2"⟩

/-- C6: every joined comparison row carries
`gap = (institution mean - reference mean) * 100`; the strengths list is
sorted descending by gap and the attention list ascending, both
permutations of the joined rows; and in the concrete scenario the topic
with institution mean 0.70 against reference mean 0.55 gets gap +15 and
precedes the topic with gap -5 in the strengths list. -/
theorem claim6_gap_orderings :
    (∀ (inst ref : List (GKey × ℚ)), ∀ g ∈ gapJoin inst ref,
        g.gap = (g.acerto - g.media_nacional) * 100) ∧
      (∀ comp : List GapRow,
        List.Sorted (keyGe (fun g => g.gap)) (fortalezasOf comp) ∧
          List.Sorted (keyLe (fun g => g.gap)) (atencaoOf comp) ∧
          (fortalezasOf comp).Perm comp ∧ (atencaoOf comp).Perm comp) ∧
      fortalezasOf (gapJoin [(kC61, 0.7), (kC62, 0.5)] [(kC61, 0.55), (kC62, 0.55)]) =
        [⟨kC61, 0.7, 0.55, 15⟩, ⟨kC62, 0.5, 0.55, -5⟩] := by
  refine ⟨?_, ?_, ?_⟩
  · intro inst ref g hg
    simp only [gapJoin, List.mem_flatMap, List.mem_map, List.mem_filter] at hg
    obtain ⟨a, _, r, _, rfl⟩ := hg
    rfl
  · intro comp
    exact ⟨List.sorted_insertionSort _ _, List.sorted_insertionSort _ _,
      List.perm_insertionSort _ _, List.perm_insertionSort _ _⟩
  · norm_num [gapJoin, fortalezasOf, sortDescBy, List.insertionSort, List.orderedInsert,
      keyGe, kC61, kC62]

/-- C6 witness: the gap-formula part of the theorem applied to a concrete
joined row. -/
theorem claim6_gap_orderings_w :
    ∃ g ∈ gapJoin [(kC61, (0.7 : ℚ))] [(kC61, 0.55)],
      g.gap = (g.acerto - g.media_nacional) * 100 := by
  refine ⟨⟨kC61, 0.7, 0.55, 15⟩, ?_,
    claim6_gap_orderings.1 [(kC61, (0.7 : ℚ))] [(kC61, 0.55)] ⟨kC61, 0.7, 0.55, 15⟩ ?_⟩ <;>
    norm_num [gapJoin]

/-! ### C7 — join conservativeness -/

lemma filterKey_len_le_one (mapa : List QuestaoMapeamento)
    (hnd : (mapa.map (fun m => (m.co_caderno, m.nu_questao))).Nodup) (cad q : Int) :
    (mapa.filter (fun m => m.nu_questao = q ∧ m.co_caderno = cad)).length ≤ 1 := by
  induction mapa with
  | nil => simp
  | cons m rest ih =>
    rw [List.map_cons, List.nodup_cons] at hnd
    obtain ⟨hnotin, hnd2⟩ := hnd
    by_cases hp : m.nu_questao = q ∧ m.co_caderno = cad
    · rw [List.filter_cons_of_pos (by simpa using hp)]
      have hrest : rest.filter (fun m => m.nu_questao = q ∧ m.co_caderno = cad) = [] := by
        rw [List.filter_eq_nil_iff]
        intro x hx hpx
        simp only [decide_eq_true_eq] at hpx
        apply hnotin
        have : (x.co_caderno, x.nu_questao) = (m.co_caderno, m.nu_questao) := by
          rw [hpx.1, hpx.2, hp.1, hp.2]
        exact this ▸ List.mem_map_of_mem _ hx
      rw [hrest]
      simp
    · rw [List.filter_cons_of_neg (by simpa using hp)]
      exact ih hnd2

/-- C7: neither inner merge ever emits a row whose (booklet, question)
pair is absent from the topic map; and when the topic map has at most
one row per (booklet, question) pair — the TopicIndex shape — the merge
output has at most as many rows as there are scored questions. -/
theorem claim7_join_conservative :
    (∀ (rows : List LongRow) (mapa : List QuestaoMapeamento), ∀ j ∈ mergeMapaCalc rows mapa,
        ∃ m ∈ mapa, m.co_caderno = j.co_caderno ∧ m.nu_questao = j.nu_questao) ∧
      (∀ (rows : List AcertoRow) (mapa : List QuestaoMapeamento), ∀ j ∈ mergeMapaRef rows mapa,
        ∃ m ∈ mapa, m.co_caderno = j.co_caderno ∧ m.nu_questao = j.nu_questao) ∧
      (∀ (rows : List LongRow) (mapa : List QuestaoMapeamento),
        (mapa.map (fun m => (m.co_caderno, m.nu_questao))).Nodup →
        (mergeMapaCalc rows mapa).length ≤ rows.length) ∧
      (∀ (rows : List AcertoRow) (mapa : List QuestaoMapeamento),
        (mapa.map (fun m => (m.co_caderno, m.nu_questao))).Nodup →
        (mergeMapaRef rows mapa).length ≤ rows.length) := by
  refine ⟨?_, ?_, ?_, ?_⟩
  · intro rows mapa j hj
    simp only [mergeMapaCalc, List.mem_flatMap, List.mem_map, List.mem_filter,
      decide_eq_true_eq] at hj
    obtain ⟨r, _, m, ⟨hm, hkey⟩, rfl⟩ := hj
    exact ⟨m, hm, hkey.2, hkey.1⟩
  · intro rows mapa j hj
    simp only [mergeMapaRef, List.mem_flatMap, List.mem_map, List.mem_filter,
      decide_eq_true_eq] at hj
    obtain ⟨r, _, m, ⟨hm, hkey⟩, rfl⟩ := hj
    exact ⟨m, hm, hkey.2, hkey.1⟩
  · intro rows mapa hnd
    induction rows with
    | nil => simp [mergeMapaCalc]
    | cons r rest ih =>
      simp only [mergeMapaCalc, List.flatMap_cons, List.length_append, List.length_map,
        List.length_cons] at ih ⊢
      have h1 := filterKey_len_le_one mapa hnd r.co_caderno r.nu_questao
      omega
  · intro rows mapa hnd
    induction rows with
    | nil => simp [mergeMapaRef]
    | cons r rest ih =>
      simp only [mergeMapaRef, List.flatMap_cons, List.length_append, List.length_map,
        List.length_cons] at ih ⊢
      have h1 := filterKey_len_le_one mapa hnd r.co_caderno r.nu_questao
      omega

/-- C7 witness: the count bound applied to one scored row and a
deduplicated one-row topic map. -/
theorem claim7_join_conservative_w :
    (mergeMapaCalc [⟨1, 1, 1, 1⟩] mapaQ2).length ≤ 1 :=
  claim7_join_conservative.2.2.1 [⟨1, 1, 1, 1⟩] mapaQ2 (by decide)

/-! ### C10 — dashboard figures over topic-mapped questions -/

lemma mergeMapaCalc_cons (r : LongRow) (rest : List LongRow) (mapa : List QuestaoMapeamento) :
    mergeMapaCalc (r :: rest) mapa =
      (mapa.filter (fun m => m.nu_questao = r.nu_questao ∧ m.co_caderno = r.co_caderno)).map
          (fun m => ⟨r.aluno_registro_id, r.co_caderno, r.nu_questao, r.acerto,
            ⟨m.grande_area, m.subespecialidade, m.diagnostico⟩⟩) ++
        mergeMapaCalc rest mapa := rfl

lemma mergeMapaCalc_map_proj {γ : Type} (mapa : List QuestaoMapeamento)
    (hnd : (mapa.map (fun m => (m.co_caderno, m.nu_questao))).Nodup)
    (f : JoinedRow → γ) (g : LongRow → γ)
    (hfg : ∀ (r : LongRow) (m : QuestaoMapeamento),
      f ⟨r.aluno_registro_id, r.co_caderno, r.nu_questao, r.acerto,
        ⟨m.grande_area, m.subespecialidade, m.diagnostico⟩⟩ = g r) :
    ∀ rows : List LongRow,
      (mergeMapaCalc rows mapa).map f =
        (rows.filter (fun r =>
          mapa.any (fun m => m.nu_questao = r.nu_questao ∧ m.co_caderno = r.co_caderno))).map g := by
  intro rows
  induction rows with
  | nil => rfl
  | cons r rest ih =>
    rcases hfl : mapa.filter
        (fun m => m.nu_questao = r.nu_questao ∧ m.co_caderno = r.co_caderno) with _ | ⟨m, tail⟩
    · have hany : mapa.any
          (fun m => decide (m.nu_questao = r.nu_questao ∧ m.co_caderno = r.co_caderno)) = false := by
        rw [List.any_eq_false]
        exact List.filter_eq_nil_iff.mp hfl
      rw [mergeMapaCalc_cons, hfl, List.filter_cons]
      simp only [hany, Bool.false_eq_true, if_false, List.map_nil, List.nil_append]
      exact ih
    · have hlen1 := filterKey_len_le_one mapa hnd r.co_caderno r.nu_questao
      rw [hfl, List.length_cons] at hlen1
      have htail : tail = [] := List.length_eq_zero.mp (by omega)
      subst htail
      have hm : m ∈ mapa.filter
          (fun m => m.nu_questao = r.nu_questao ∧ m.co_caderno = r.co_caderno) := by
        rw [hfl]
        exact List.mem_singleton.mpr rfl
      have hm2 := List.mem_filter.mp hm
      have hany : mapa.any
          (fun m => decide (m.nu_questao = r.nu_questao ∧ m.co_caderno = r.co_caderno)) = true :=
        List.any_eq_true.mpr ⟨m, hm2.1, hm2.2⟩
      rw [mergeMapaCalc_cons, hfl, List.filter_cons]
      simp only [hany, if_true, List.map_cons, List.map_nil, List.singleton_append, hfg r m, ih]

/-- C10: under a deduplicated topic map, the dashboard overall mean is
the (two-decimal-rounded, percentage) mean correctness over exactly the
scored question rows that have a topic mapping, and its distinct-student
count is taken over the same rows — scored questions without a mapping
contribute to neither figure. -/
theorem claim10_dashboard_mapped_only (cache : GabCache) (mapa : List QuestaoMapeamento)
    (alunos : List Aluno) (co_curso : Int) (d : Dashboard)
    (hnd : (mapa.map (fun m => (m.co_caderno, m.nu_questao))).Nodup)
    (hd : dashboard_completo cache mapa alunos co_curso = some d) :
    d.media_geral = pyRound2 (100 * seriesMean
        (((dfLong cache (alunos.filter (fun a => a.co_curso = co_curso))).filter
            (fun r => mapa.any (fun m => m.nu_questao = r.nu_questao ∧
              m.co_caderno = r.co_caderno))).map (fun r => (r.acerto : ℚ)))) ∧
      d.alunos = countDistinct
        (((dfLong cache (alunos.filter (fun a => a.co_curso = co_curso))).filter
            (fun r => mapa.any (fun m => m.nu_questao = r.nu_questao ∧
              m.co_caderno = r.co_caderno))).map (fun r => r.aluno_registro_id)) := by
  unfold dashboard_completo at hd
  split at hd
  next hcalc => exact absurd hd (by simp)
  next df hcalc =>
    have hdf : df = mergeMapaCalc
        (dfLong cache (alunos.filter (fun a => a.co_curso = co_curso))) mapa := by
      simp only [calcular_metricas_curso] at hcalc
      split at hcalc
      · exact absurd hcalc (by simp)
      · exact (Option.some.inj hcalc).symm
    split at hd
    · exact absurd hd (by simp)
    · split at hd
      next href => exact absurd hd (by simp)
      next ref href =>
        simp only [Option.some.injEq] at hd
        subst hd
        constructor
        · show pyRound2 (100 * seriesMean (df.map (fun r => (r.acerto : ℚ)))) = _
          rw [hdf, mergeMapaCalc_map_proj mapa hnd (fun j => (j.acerto : ℚ))
            (fun r => (r.acerto : ℚ)) (fun r m => rfl)]
        · show countDistinct (df.map (fun r => r.aluno_registro_id)) = _
          rw [hdf, mergeMapaCalc_map_proj mapa hnd (fun j => j.aluno_registro_id)
            (fun r => r.aluno_registro_id) (fun r m => rfl)]

/-- A one-symbol answer key for the dashboard witness. -/
def cacheW10 : GabCache := [(1, ['A'])]

/-- A one-row topic map (booklet 1, question 1) for the dashboard witness. -/
def mapaW10 : List QuestaoMapeamento := [⟨1, 1, "GA", "SUB", "DIAG"⟩]

/-- One student of institution 5 answering its single keyed question. -/
def alunoW10 : Aluno := ⟨1, 2025, 5, 1, "IES E", "N", "N", "A"⟩

/-- The grouping key of `mapaW10`. -/
def kW10 : GKey := ⟨"GA", "SUB", "DIAG"⟩

/-- The dashboard value computed over the witness population. -/
def dashW10 : Dashboard := ⟨some "IES E", 100, 1, [⟨kW10, 1, 1, 0⟩], [⟨kW10, 1, 1, 0⟩]⟩

lemma dashboard_w10 : dashboard_completo cacheW10 mapaW10 [alunoW10] 5 = some dashW10 := by
  have hcalc : calcular_metricas_curso cacheW10 mapaW10 [alunoW10] 5 =
      some [⟨1, 1, 1, 1, kW10⟩] := by decide
  have htrav : traverseOpt (refScoreAluno cacheW10) [alunoW10] = some [[⟨1, 1, 1⟩]] := by decide
  unfold dashboard_completo obter_referencial_nacional
  rw [hcalc, htrav]
  norm_num [groupMean, distinctKeys, seriesMean, gapJoin, fortalezasOf, atencaoOf,
    sortDescBy, sortAscBy, List.insertionSort, pyRound2, pyRoundTo, roundHalfEven,
    countDistinct, mergeMapaRef, kW10, dashW10, alunoW10, mapaW10, cacheW10]

/-- C10 witness: the theorem applied to the one-student witness population. -/
theorem claim10_dashboard_mapped_only_w :
    dashW10.media_geral = pyRound2 (100 * seriesMean
        (((dfLong cacheW10 ([alunoW10].filter (fun a => a.co_curso = 5))).filter
            (fun r => mapaW10.any (fun m => m.nu_questao = r.nu_questao ∧
              m.co_caderno = r.co_caderno))).map (fun r => (r.acerto : ℚ)))) ∧
      dashW10.alunos = countDistinct
        (((dfLong cacheW10 ([alunoW10].filter (fun a => a.co_curso = 5))).filter
            (fun r => mapaW10.any (fun m => m.nu_questao = r.nu_questao ∧
              m.co_caderno = r.co_caderno))).map (fun r => r.aluno_registro_id)) :=
  claim10_dashboard_mapped_only cacheW10 mapaW10 [alunoW10] 5 dashW10 (by decide) dashboard_w10

/-! ### C9 — rounding before a stable sort in the ranking -/

lemma map_co_update (l : List RankAcc) (c : Int) (a t : Nat) :
    (l.map (fun e => if e.co_curso = c
        then { e with acertos := e.acertos + a, total := e.total + t } else e)).map
      (fun e => e.co_curso) = l.map (fun e => e.co_curso) := by
  rw [List.map_map]
  apply List.map_congr_left
  intro e _
  by_cases h : e.co_curso = c <;> simp [h]

lemma rankStep_keys (cache : GabCache) (acc : List RankAcc) (r : Aluno) (acc1 : List RankAcc)
    (h : rankStep cache acc r = some acc1) :
    acc1.map (fun e => e.co_curso) =
      if r.co_curso ∈ acc.map (fun e => e.co_curso) then acc.map (fun e => e.co_curso)
      else acc.map (fun e => e.co_curso) ++ [r.co_curso] := by
  simp only [rankStep] at h
  split at h
  · -- no usable key: the accumulator keeps only the possibly extended entry list
    obtain rfl := Option.some.inj h
    by_cases hm : r.co_curso ∈ acc.map (fun e => e.co_curso)
    · rw [if_pos hm, if_pos hm]
    · rw [if_neg hm, if_neg hm, List.map_append]
      rfl
  · split at h
    · exact absurd h (by simp)
    · obtain rfl := Option.some.inj h
      rw [map_co_update]
      by_cases hm : r.co_curso ∈ acc.map (fun e => e.co_curso)
      · rw [if_pos hm, if_pos hm]
      · rw [if_neg hm, if_neg hm, List.map_append]
        rfl

lemma rankBuild_keys (cache : GabCache) :
    ∀ (rs : List Aluno) (acc out : List RankAcc), rankBuild cache acc rs = some out →
      out.map (fun e => e.co_curso) =
        acc.map (fun e => e.co_curso) ++
          distinctKeys (acc.map (fun e => e.co_curso)) (rs.map (fun a => a.co_curso)) := by
  intro rs
  induction rs with
  | nil =>
    intro acc out h
    obtain rfl := Option.some.inj h
    simp [distinctKeys]
  | cons r rest ih =>
    intro acc out h
    simp only [rankBuild] at h
    split at h
    · exact absurd h (by simp)
    · rename_i acc1 heq
      have hk := rankStep_keys cache acc r acc1 heq
      have ihh := ih acc1 out h
      rw [ihh, hk]
      by_cases hm : r.co_curso ∈ acc.map (fun e => e.co_curso)
      · rw [if_pos hm]
        simp [distinctKeys, hm]
      · rw [if_neg hm]
        simp [distinctKeys, hm, List.append_assoc]

lemma filter_orderedInsert_key {α : Type} (k : α → ℚ) (m : ℚ) (a : α) :
    ∀ l : List α, (List.orderedInsert (keyGe k) a l).filter (fun e => k e = m) =
      if k a = m then a :: l.filter (fun e => k e = m)
      else l.filter (fun e => k e = m) := by
  intro l
  induction l with
  | nil => by_cases hm : k a = m <;> simp [List.orderedInsert, hm]
  | cons b t ih =>
    by_cases hr : keyGe k a b
    · rw [List.orderedInsert, if_pos hr]
      by_cases hm : k a = m <;> simp [List.filter_cons, hm]
    · rw [List.orderedInsert, if_neg hr, List.filter_cons, ih]
      by_cases hm : k a = m
      · have hlt : k a < k b := not_le.mp hr
        have hbm : ¬(k b = m) := by
          intro hbm
          rw [hm, hbm] at hlt
          exact lt_irrefl m hlt
        simp [hm, hbm, List.filter_cons]
      · by_cases hbm : k b = m <;> simp [hm, hbm, List.filter_cons]

lemma filter_sortDescBy {α : Type} (k : α → ℚ) (m : ℚ) :
    ∀ l : List α, (sortDescBy k l).filter (fun e => k e = m) = l.filter (fun e => k e = m) := by
  intro l
  induction l with
  | nil => rfl
  | cons a t ih =>
    show (List.orderedInsert (keyGe k) a (List.insertionSort (keyGe k) t)).filter _ = _
    rw [filter_orderedInsert_key k m a (List.insertionSort (keyGe k) t)]
    have ih2 : (List.insertionSort (keyGe k) t).filter (fun e => k e = m) =
        t.filter (fun e => k e = m) := ih
    rw [ih2]
    by_cases hm : k a = m <;> simp [List.filter_cons, hm]

/-- C9: each institution mean is rounded to one decimal when its
leaderboard entry is built, the leaderboard is the stable descending
sort of those entries on the rounded media — so it is sorted on the
rounded value, and for every rounded media the entries carrying it keep
their pre-sort order — and the pre-sort entries are in the encounter
order of their institutions in the queried record stream. -/
theorem claim9_round_then_stable_sort (cache : GabCache) (locs : List Localidade)
    (alunos : List Aluno) (co_curso : Int) (uf : Option String)
    (acc : List RankAcc) (ranking : List RankingEntry) (pos tot : Nat)
    (hb : rankBuild cache [] (filterRegion locs uf alunos) = some acc)
    (h : obter_ranking_ies cache locs alunos co_curso uf = some (ranking, pos, tot)) :
    ranking = sortDescBy (fun e => e.media) (acc.map mkEntry) ∧
      (∀ e : RankAcc, (mkEntry e).media = pyRound1 (mediaPct e.acertos e.total)) ∧
      List.Sorted (keyGe (fun e => e.media)) ranking ∧
      (∀ m : ℚ, ranking.filter (fun e => e.media = m) =
        (acc.map mkEntry).filter (fun e => e.media = m)) ∧
      acc.map (fun e => e.co_curso) =
        distinctKeys [] ((filterRegion locs uf alunos).map (fun a => a.co_curso)) := by
  unfold obter_ranking_ies at h
  rw [hb] at h
  simp only [Option.some.injEq, Prod.mk.injEq] at h
  obtain ⟨hrank, -, -⟩ := h
  subst hrank
  refine ⟨rfl, fun e => rfl, ?_, ?_, ?_⟩
  · exact List.sorted_insertionSort _ _
  · intro m
    exact filter_sortDescBy _ m _
  · have hkeys := rankBuild_keys cache (filterRegion locs uf alunos) [] acc hb
    simpa using hkeys

/-- Booklet-1 one-symbol key for the C9 witness. -/
def cacheW9 : GabCache := [(1, ['A'])]

/-- First-encountered institution of the C9 witness. -/
def alunoW9a : Aluno := ⟨1, 2025, 1, 1, "IES F", "N", "N", "A"⟩

/-- Second-encountered institution of the C9 witness, same rounded media. -/
def alunoW9b : Aluno := ⟨2, 2025, 2, 1, "IES G", "N", "N", "A"⟩

/-- The accumulator of the C9 witness population. -/
def accW9 : List RankAcc := [⟨1, "IES F", 1, 1⟩, ⟨2, "IES G", 1, 1⟩]

/-- The leaderboard of the C9 witness population: both institutions have
rounded media 100 and keep encounter order. -/
def rankW9 : List RankingEntry := [⟨1, "IES F", 100⟩, ⟨2, "IES G", 100⟩]

lemma obter_ranking_w9 : obter_ranking_ies cacheW9 [] [alunoW9a, alunoW9b] 1 none =
    some (rankW9, 1, 2) := by
  have hb : rankBuild cacheW9 [] (filterRegion [] none [alunoW9a, alunoW9b]) = some accW9 := by
    decide
  have hme : accW9.map mkEntry = rankW9 := by
    norm_num [accW9, rankW9, mkEntry, mediaPct, pyRound1, pyRoundTo, roundHalfEven]
  have hs : sortDescBy (fun e => e.media) rankW9 = rankW9 := by
    norm_num [rankW9, sortDescBy, List.insertionSort, List.orderedInsert, keyGe]
  unfold obter_ranking_ies
  rw [hb]
  simp only [hme, hs]
  simp [rankW9, List.findIdx?]

/-- C9 witness: the two witness institutions share rounded media 100 and
the theorem's stability part keeps them in encounter order. -/
theorem claim9_round_then_stable_sort_w :
    rankW9.filter (fun e => e.media = 100) =
      (accW9.map mkEntry).filter (fun e => e.media = 100) :=
  (claim9_round_then_stable_sort cacheW9 [] [alunoW9a, alunoW9b] 1 none accW9 rankW9 1 2
    (by decide) obter_ranking_w9).2.2.2.1 100

end WebApp
